import Mathlib

/-!
Shallow embedding of the Hummingbird LCLS backend (`src/backend/lcls.py`).

Conventions of the embedding:
* Python floats are modelled as exact rationals (`ℚ`); decimal literals of the
  source become the corresponding rational literals.
* psana objects are modelled by `PsanaObj`, a record of all accessor methods the
  translator reads, tagged with the object's runtime type (`PsanaType`); the
  `isinstance` tests of the source become equality tests on that tag.
* Python dicts keyed by strings are association lists with overwrite-on-insert
  (`dictInsert`); Python exceptions become `Except String`.
* The psana library itself (event iteration, `evt.get`, the EPICS store, the
  configuration store) is a black box: events are finite lists of
  (native key, object) pairs, and the stores are fields of `Translator`.
-/

namespace LCLS

/-- Native psana types that appear in the translator tables of `lcls.py`.
`other n` stands for any psana type the translator does not mention. -/
inductive PsanaType where
  | BldDataFEEGasDetEnergy
  | BldDataFEEGasDetEnergyV1
  | IpmFexV1
  | CameraFrameV1
  | BldDataEBeamV1
  | BldDataEBeamV2
  | BldDataEBeamV3
  | BldDataEBeamV4
  | BldDataEBeamV5
  | BldDataEBeamV6
  | BldDataEBeamV7
  | CsPadDataV2
  | CsPad2x2ElementV1
  | PNCCDFullFrameV1
  | PNCCDFramesV1
  | AcqirisDataDescV1
  | EventId
  | EvrDataV3
  | EvrDataV4
  | other (n : Nat)
  deriving Repr, DecidableEq

/-- Native event key: the (type, src, key) triple psana uses to address data in
an event (`k.type()`, `k.src()`, `k.key()`). -/
structure NativeKey where
  ptype : PsanaType
  src : String
  keyStr : String
  deriving Repr, DecidableEq

/-- Mapping from native psana types to Hummingbird category names: the `_n2c`
dict of `LCLSTranslator.__init__` (all psana versions present, i.e. the guarded
`try` blocks succeed). -/
def n2c : PsanaType → Option String
  | .BldDataFEEGasDetEnergy => some "pulseEnergies"
  | .BldDataFEEGasDetEnergyV1 => some "pulseEnergies"
  | .IpmFexV1 => some "pulseEnergies"
  | .CameraFrameV1 => some "camera"
  | .BldDataEBeamV1 => some "photonEnergies"
  | .BldDataEBeamV2 => some "photonEnergies"
  | .BldDataEBeamV3 => some "photonEnergies"
  | .BldDataEBeamV4 => some "photonEnergies"
  | .BldDataEBeamV5 => some "photonEnergies"
  | .BldDataEBeamV6 => some "photonEnergies"
  | .BldDataEBeamV7 => some "photonEnergies"
  | .CsPadDataV2 => some "photonPixelDetectors"
  | .CsPad2x2ElementV1 => some "photonPixelDetectors"
  | .PNCCDFullFrameV1 => some "photonPixelDetectors"
  | .PNCCDFramesV1 => some "photonPixelDetectors"
  | .AcqirisDataDescV1 => some "ionTOFs"
  | .EventId => some "eventID"
  | .EvrDataV3 => some "eventCodes"
  | .EvrDataV4 => some "eventCodes"
  | .other _ => none

/-- Keys of the `_n2c` dict, in insertion order. -/
def registeredTypes : List PsanaType :=
  [.BldDataFEEGasDetEnergy, .BldDataFEEGasDetEnergyV1, .IpmFexV1, .CameraFrameV1,
   .BldDataEBeamV1, .BldDataEBeamV2, .BldDataEBeamV3, .BldDataEBeamV4,
   .BldDataEBeamV5, .BldDataEBeamV6, .BldDataEBeamV7,
   .CsPadDataV2, .CsPad2x2ElementV1, .PNCCDFullFrameV1, .PNCCDFramesV1,
   .AcqirisDataDescV1, .EventId, .EvrDataV3, .EvrDataV4]

/-- Inverse mapping `_c2n`: for a category name, the registered native types
mapped to it (built from `_n2c` by the loop in `__init__`; Python-2 dict
iteration order is unspecified, so only the members matter). An absent
category key is the empty list. -/
def c2n (cat : String) : List PsanaType :=
  registeredTypes.filter (fun t => n2c t = some cat)

/-- Mapping from native psana source strings to detector names: the `_s2c`
dict of `LCLSTranslator.__init__` (later assignments overwrite earlier ones,
as in a Python dict). -/
def s2c : String → Option String
  | "DetInfo(CxiEndstation.0:Opal4000.1)" => some "Sc2Questar"
  | "DetInfo(CxiEndstation.0.Opal11000.0)" => some "Sc2Offaxis"
  | "DetInfo(CxiDs1.0:Cspad.0)" => some "CsPad Ds1"
  | "DetInfo(CxiDsd.0:Cspad.0)" => some "CsPad Dsd"
  | "DetInfo(CxiDs2.0:Cspad.0)" => some "CsPad Ds2"
  | "DetInfo(CxiDg3.0:Cspad2x2.0)" => some "CsPad Dg3"
  | "DetInfo(CxiDg2.0:Cspad2x2.0)" => some "CsPad Dg2"
  | "DetInfo(Camp.0:pnCCD.1)" => some "pnccdBack"
  | "DetInfo(Camp.0:pnCCD.0)" => some "pnccdFront"
  | "DetInfo(AmoEndstation.0:Acqiris.0)" => some "Acqiris 0"
  | "DetInfo(AmoEndstation.0:Acqiris.1)" => some "Acqiris 1"
  | "DetInfo(AmoEndstation.0:Acqiris.2)" => some "Acqiris 2"
  | "DetInfo(AmoETOF.0:Acqiris.0)" => some "Acqiris 0"
  | "DetInfo(AmoETOF.0:Acqiris.1)" => some "Acqiris 1"
  | "DetInfo(AmoITOF.0:Acqiris.0)" => some "Acqiris 2"
  | "DetInfo(AmoITOF.0:Acqiris.1)" => some "Acqiris 3"
  | "DetInfo(AmoEndstation.0:Opal1000.1)" => some "OPAL1"
  | "DetInfo(CxiEndstation.0:Acqiris.0)" => some "Acqiris 0"
  | "DetInfo(CxiEndstation.0:Acqiris.1)" => some "Acqiris 1"
  | _ => none

/-- Numpy array payload: a shape together with (opaque) entry data. -/
structure NDArray where
  shape : List Nat
  entries : List ℚ
  deriving Repr, DecidableEq

/-- One Acqiris channel, as read by `_tr_acqiris`: `elem.timestamp()[0].value()`,
`elem.waveforms()[0]` and `elem.nbrSamplesInSeg()`. -/
structure AcqChannel where
  timestamp0 : ℚ
  waveform0 : List ℚ
  nbrSamplesInSeg : Nat
  deriving Repr, DecidableEq

/-- Vertical-scale configuration of one Acqiris channel (`vert.slope()`,
`vert.offset()`). -/
structure AcqVert where
  slope : ℚ
  offset : ℚ
  deriving Repr, DecidableEq

/-- Acqiris configuration record (`psana.Acqiris.ConfigV1`) as read from the
configuration store: `horiz().sampInterval()` and the list `vert()`. -/
structure AcqConfig where
  sampInterval : ℚ
  verts : List AcqVert
  deriving Repr, DecidableEq

/-- Psana data object: the runtime type tag plus every accessor the translator
reads. Accessors irrelevant to a given type keep their default value. -/
structure PsanaObj where
  otype : PsanaType
  ebeamPhotonEnergy : ℚ := 0
  ebeamPkCurrBC2 : ℚ := 0
  ebeamL3Energy : ℚ := 0
  f_11_ENRC : ℚ := 0
  f_12_ENRC : ℚ := 0
  f_21_ENRC : ℚ := 0
  f_22_ENRC : ℚ := 0
  sum : ℚ := 0
  data16 : NDArray := ⟨[], []⟩
  cspad2x2HasData : Bool := false
  cspad2x2Data : NDArray := ⟨[], []⟩
  quads : List NDArray := []
  pnccdData : NDArray := ⟨[], []⟩
  frames : List NDArray := []
  channels : List AcqChannel := []
  fifoEventCodes : List Int := []
  time : Nat × Nat := (0, 0)
  fiducials : Nat := 0
  run : Nat := 0
  ticks : Nat := 0
  vector : Nat := 0
  deriving Repr, DecidableEq

/-- Raw native event: the finite collection of (native key, object) pairs the
psana event holds; `evt.keys()` lists the keys and `evt.get` returns the
stored object. -/
structure Event where
  entries : List (NativeKey × PsanaObj)
  deriving Repr, DecidableEq

/-- Translation of a native key to Hummingbird categories
(`LCLSTranslator._native_to_common`). -/
def native_to_common (key : NativeKey) : List String :=
  match n2c key.ptype with
  | some c => [c]
  | none => []

/-- Translated keys available for an event (`LCLSTranslator.event_keys`):
the set of categories of the native keys, plus `parameters` and `analysis`.
The Python set is modelled as a duplicate-free accumulation list. -/
def event_keys (evt : Event) : List String :=
  let commonKeys := evt.entries.foldl
    (fun acc e =>
      (native_to_common e.1).foldl
        (fun acc2 c => if c ∈ acc2 then acc2 else acc2 ++ [c]) acc)
    []
  commonKeys ++ ["parameters"] ++ ["analysis"]

/-- Measurement units used by the translator (`ureg.*`). -/
inductive UnitTag where
  | ADU
  | eV
  | mJ
  | V
  | s
  deriving Repr, DecidableEq

/-- Values carried by records. `datetimeOf ts` stands for the (opaque)
timezone-converted `datetime.datetime.fromtimestamp(ts)` object and
`datetime64Of s ns` for `numpy.datetime64(datetime.fromtimestamp(s), ns) + ns`;
`native o` is a raw psana object stored untranslated. -/
inductive RValue where
  | num (q : ℚ)
  | nd (a : NDArray)
  | codes (cs : List Int)
  | datetimeOf (ts : ℚ)
  | datetime64Of (sec nsec : Nat)
  | rawList (l : List ℚ)
  | native (o : PsanaObj)
  deriving Repr, DecidableEq

/-- EPICS process variable as returned by `epicsStore().getPV`; `value0` is
`pv.value(0)`. -/
structure PV where
  value0 : ℚ
  deriving Repr, DecidableEq

/-- Modelled from the spec: `backend.record` is not under `src/`. Per the spec
a record is "a named, unit-tagged value produced by decoding one native item";
dynamic attributes the translator sets on records (`timestamp`, `fiducials`,
`pv`, ...) are optional fields. -/
structure PRecord where
  name : String
  data : RValue
  unit : Option UnitTag := none
  group : Option String := none
  timestamp : Option ℚ := none
  timestamp2 : Option Nat := none
  fiducials : Option Nat := none
  run : Option Nat := none
  ticks : Option Nat := none
  vector : Option Nat := none
  datetime64 : Option RValue := none
  time : Option RValue := none
  pv : Option PV := none
  deriving Repr, DecidableEq

/-- Category-keyed result dict of one `translate` call: record name ↦ record. -/
abbrev RecordDict := List (String × PRecord)

/-- Lookup in a string-keyed Python dict modelled as an association list. -/
def dictLookup (d : RecordDict) (key : String) : Option PRecord :=
  d.lookup key

/-- Assignment `d[key] = v` in a Python dict: overwrite the existing binding
or append a new one. -/
def dictInsert (d : RecordDict) (key : String) (v : PRecord) : RecordDict :=
  if d.lookup key = none then d ++ [(key, v)]
  else d.map (fun p => if p.1 = key then (key, v) else p)

/-- Modelled from the spec: `backend.record.add_record` is not under `src/`;
per the spec it creates the named, unit-tagged record and stores it in the
per-event category mapping under its name. -/
def add_record (values : RecordDict) (group name : String) (value : RValue)
    (unit : Option UnitTag) : RecordDict :=
  dictInsert values name { name := name, data := value, unit := unit, group := some group }

/-- Translation of `BldDataEBeam*` to photon energy
(`LCLSTranslator._tr_bld_data_ebeam`). The local variables `peak_current` and
`dl2_energy_gev` are modelled as `Option` locals, `none` while unassigned;
reading an unassigned local is Python's `UnboundLocalError`, an exception. -/
def tr_bld_data_ebeam (values : RecordDict) (obj : PsanaObj) :
    Except String RecordDict := do
  let mut photon_energy_ev : ℚ := -1
  let mut peak_current : Option ℚ := none
  let mut dl2_energy_gev : Option ℚ := none
  if obj.otype = .BldDataEBeamV6 then
    photon_energy_ev := obj.ebeamPhotonEnergy
  else
    peak_current := some obj.ebeamPkCurrBC2
    dl2_energy_gev := some ((0.001 : ℚ) * obj.ebeamL3Energy)
  if photon_energy_ev = -1 then
    let pc ← match peak_current with
      | some v => pure v
      | none => throw "UnboundLocalError: peak_current"
    let dl2 ← match dl2_energy_gev with
      | some v => pure v
      | none => throw "UnboundLocalError: dl2_energy_gev"
    let ltu_wake_loss := (0.0016293 : ℚ) * pc
    let sr_loss_per_segment := (0.63 : ℚ) * dl2
    let wake_loss_per_segment := (0.0003 : ℚ) * pc
    let energy_loss_per_segment := sr_loss_per_segment + wake_loss_per_segment
    let energy_profile := dl2 - (0.001 : ℚ) * ltu_wake_loss -
      (0.0005 : ℚ) * energy_loss_per_segment
    photon_energy_ev := (44.42 : ℚ) * energy_profile * energy_profile
  return add_record values "photonEnergies" "photonEnergy" (.num photon_energy_ev)
    (some .eV)

/-- Translation of the gas monitor detector
(`LCLSTranslator._tr_bld_data_fee_gas_det_energy`). -/
def tr_bld_data_fee_gas_det_energy (values : RecordDict) (obj : PsanaObj) :
    RecordDict :=
  let values := add_record values "pulseEnergies" "f_11_ENRC" (.num obj.f_11_ENRC) (some .mJ)
  let values := add_record values "pulseEnergies" "f_12_ENRC" (.num obj.f_12_ENRC) (some .mJ)
  let values := add_record values "pulseEnergies" "f_21_ENRC" (.num obj.f_21_ENRC) (some .mJ)
  add_record values "pulseEnergies" "f_22_ENRC" (.num obj.f_22_ENRC) (some .mJ)

/-- Translation of the Ipm relative pulse energy monitor
(`LCLSTranslator._tr_lusi_ipm_fex`). -/
def tr_lusi_ipm_fex (values : RecordDict) (obj : PsanaObj) (evt_key : NativeKey) :
    RecordDict :=
  add_record values "pulseEnergies" ("IpmFex - " ++ evt_key.src) (.num obj.sum) (some .ADU)

/-- Translation of CsPad2x2 (`LCLSTranslator._tr_cspad2x2`): `obj.data()` when
available, otherwise the `AttributeError` fallback `obj.data16()`. -/
def tr_cspad2x2 (values : RecordDict) (obj : PsanaObj) : RecordDict :=
  if obj.cspad2x2HasData then
    add_record values "photonPixelDetectors" "CsPad2x2S" (.nd obj.cspad2x2Data) (some .ADU)
  else
    add_record values "photonPixelDetectors" "CsPad2x2" (.nd obj.data16) (some .ADU)

/-- Translation of a camera frame (`LCLSTranslator._tr_camera`): records are
added only for the two recognised `data16` shapes. -/
def tr_camera (values : RecordDict) (obj : PsanaObj) : RecordDict :=
  let data := obj.data16
  let values :=
    if data.shape = [1024, 1024] then
      add_record values "camera" "mcp" (.nd data) (some .ADU)
    else values
  if data.shape = [1752, 2336] then
    add_record values "camera" "onAxis" (.nd data) (some .ADU)
  else values

/-- Translation of CsPad, quad by quad (`LCLSTranslator._tr_cspad`). The
`self._s2c[...]` dict lookup raises a `KeyError` for an unknown source. -/
def tr_cspad (values : RecordDict) (obj : PsanaObj) (evt_key : NativeKey) :
    Except String RecordDict := do
  let srcName ← match s2c evt_key.src with
    | some v => pure v
    | none => throw "KeyError: source not in s2c"
  let n_quads := obj.quads.length
  return (List.range n_quads).foldl
    (fun vals i =>
      add_record vals "photonPixelDetectors" (srcName ++ "Quad" ++ toString i)
        (.nd (obj.quads.getD i ⟨[], []⟩)) (some .ADU))
    values

/-- Translation of a full pnCCD frame (`LCLSTranslator._tr_pnccdFullFrame`). -/
def tr_pnccdFullFrame (values : RecordDict) (obj : PsanaObj) (evt_key : NativeKey) :
    Except String RecordDict := do
  let srcName ← match s2c evt_key.src with
    | some v => pure v
    | none => throw "KeyError: source not in s2c"
  return add_record values "photonPixelDetectors" (srcName ++ "fullFrame")
    (.nd obj.pnccdData) (some .ADU)

/-- Translation of pnCCD frames, frame by frame (`LCLSTranslator._tr_pnccdFrames`). -/
def tr_pnccdFrames (values : RecordDict) (obj : PsanaObj) (evt_key : NativeKey) :
    Except String RecordDict := do
  let srcName ← match s2c evt_key.src with
    | some v => pure v
    | none => throw "KeyError: source not in s2c"
  let n_frames := obj.frames.length
  return (List.range n_frames).foldl
    (fun vals i =>
      add_record vals "photonPixelDetectors" (srcName ++ "Frame" ++ toString i)
        (.nd (obj.frames.getD i ⟨[], []⟩)) (some .ADU))
    values

/-- Translation of Acqiris TOF data (`LCLSTranslator._tr_acqiris`). The
configuration store access and the `vert()[i]` index can fail; the record
stores the scaled waveform and a `time` axis `timestamp + sampInterval * arange`. -/
def tr_acqiris (configStore : String → Option AcqConfig) (values : RecordDict)
    (obj : PsanaObj) (evt_key : NativeKey) : Except String RecordDict := do
  let acq_config ← match configStore evt_key.src with
    | some c => pure c
    | none => throw "AttributeError: NoneType has no attribute horiz"
  let samp_interval := acq_config.sampInterval
  let n_channels := obj.channels.length
  let srcName ← match s2c evt_key.src with
    | some v => pure v
    | none => throw "KeyError: source not in s2c"
  (List.range n_channels).foldlM
    (fun vals i => do
      let vert ← match acq_config.verts.get? i with
        | some v => pure v
        | none => throw "IndexError: vert"
      let elem := obj.channels.getD i ⟨0, [], 0⟩
      let timestamp := elem.timestamp0
      let raw := elem.waveform0
      let data := raw.map (fun x => x * vert.slope - vert.offset)
      let rec0 : PRecord :=
        { name := srcName ++ " Channel " ++ toString i
          data := .rawList data
          unit := some .V
          time := some (.rawList ((List.range elem.nbrSamplesInSeg).map
            (fun j => timestamp + samp_interval * (j : ℚ)))) }
      return dictInsert vals rec0.name rec0)
    values

/-- Translation of the LCLS event identifier (`LCLSTranslator._tr_event_id`).
`timestamp` is `time()[0] + time()[1]*1e-9` and `timestamp2` is
`time()[0] << 32 | time()[1]`. -/
def tr_event_id (values : RecordDict) (obj : PsanaObj) : RecordDict :=
  let timestamp : ℚ := (obj.time.1 : ℚ) + (obj.time.2 : ℚ) * (1e-9 : ℚ)
  let rec0 : PRecord :=
    { name := "Timestamp"
      data := .datetimeOf timestamp
      unit := some .s
      datetime64 := some (.datetime64Of obj.time.1 obj.time.2)
      fiducials := some obj.fiducials
      run := some obj.run
      ticks := some obj.ticks
      vector := some obj.vector
      timestamp := some timestamp
      timestamp2 := some (obj.time.1 <<< 32 ||| obj.time.2) }
  dictInsert values rec0.name rec0

/-- Translation of LCLS event codes (`LCLSTranslator._tr_event_codes`). -/
def tr_event_codes (values : RecordDict) (obj : PsanaObj) : RecordDict :=
  add_record values "eventCodes" "EvrEventCodes" (.codes obj.fifoEventCodes) none

/-- EPICS parameter store of the run (`data_source.env().epicsStore()`), a
black-box collaborator: the PV lookup plus the name lists. -/
structure EpicsStore where
  pvNames : List String
  aliases : List String
  getPV : String → Option PV

/-- Dict-like lazy view over the EPICS store (`EPICSdict.__init__`):
`_cache` starts empty and `_keys` unmemoised. -/
structure EPICSdict where
  epics : EpicsStore
  cache : List (String × PRecord)
  keysMemo : Option (List String)

/-- Fresh `EPICSdict` over a store, as built by `EPICSdict.__init__`. -/
def EPICSdict.init (epics : EpicsStore) : EPICSdict :=
  { epics := epics, cache := [], keysMemo := none }

/-- Available EPICS names (`EPICSdict.keys`), memoised on first call. -/
def EPICSdict.keyList (d : EPICSdict) : List String × EPICSdict :=
  match d.keysMemo with
  | some ks => (ks, d)
  | none =>
    let ks := d.epics.pvNames ++ d.epics.aliases
    (ks, { d with keysMemo := some ks })

/-- Item access (`EPICSdict.__getitem__`): on a cache miss the PV is fetched
and decoded into a record which is cached; a missing PV is a `KeyError`. The
returned `Nat` counts the `epics.getPV` store accesses (decode attempts) the
call performs, and the returned `EPICSdict` is the state after the call,
error or not. -/
def EPICSdict.getItem (d : EPICSdict) (key : String) :
    Except String PRecord × EPICSdict × Nat :=
  match d.cache.lookup key with
  | some r => (.ok r, d, 0)
  | none =>
    match d.epics.getPV key with
    | none => (.error (key ++ " is not a valid EPICS key"), d, 1)
    | some pv =>
      let rec0 : PRecord := { name := key, data := .num pv.value0, pv := some pv }
      let d' : EPICSdict := { d with cache := d.cache ++ [(key, rec0)] }
      (.ok rec0, d', 1)

/-- Translator state the per-event translation needs from the psana
environment: the configuration store (for Acqiris) and the EPICS store. -/
structure Translator where
  configStore : String → Option AcqConfig
  epicsStore : EpicsStore

/-- Construction of the EPICS view (`LCLSTranslator._tr_epics`). -/
def tr_epics (t : Translator) : EPICSdict :=
  EPICSdict.init t.epicsStore

/-- Branch dispatch of `translate_core` for one native object: the
`isinstance` chain, in source order, ending in the unsupported-type
`RuntimeError`. -/
def translateObject (t : Translator) (key : String) (values : RecordDict)
    (k : NativeKey) (obj : PsanaObj) : Except String RecordDict :=
  if obj.otype = .BldDataFEEGasDetEnergy ∨ obj.otype = .BldDataFEEGasDetEnergyV1 then
    .ok (tr_bld_data_fee_gas_det_energy values obj)
  else if obj.otype = .IpmFexV1 then
    .ok (tr_lusi_ipm_fex values obj k)
  else if key = "photonEnergies" then
    tr_bld_data_ebeam values obj
  else if obj.otype = .CsPad2x2ElementV1 then
    .ok (tr_cspad2x2 values obj)
  else if obj.otype = .CsPadDataV2 then
    tr_cspad values obj k
  else if obj.otype = .PNCCDFullFrameV1 then
    tr_pnccdFullFrame values obj k
  else if obj.otype = .PNCCDFramesV1 then
    tr_pnccdFrames values obj k
  else if obj.otype = .AcqirisDataDescV1 then
    tr_acqiris t.configStore values obj k
  else if obj.otype = .CameraFrameV1 then
    .ok (tr_camera values obj)
  else if obj.otype = .EventId then
    .ok (tr_event_id values obj)
  else if obj.otype = .EvrDataV3 ∨ obj.otype = .EvrDataV4 then
    .ok (tr_event_codes values obj)
  else
    .error "RuntimeError: not yet supported"

/-- Guard of the dispatch chain: whether some branch of `translateObject`
other than the final unsupported-type `RuntimeError` matches the object. -/
def matchesBranch (key : String) (obj : PsanaObj) : Bool :=
  obj.otype = .BldDataFEEGasDetEnergy ∨ obj.otype = .BldDataFEEGasDetEnergyV1 ∨
  obj.otype = .IpmFexV1 ∨ key = "photonEnergies" ∨
  obj.otype = .CsPad2x2ElementV1 ∨ obj.otype = .CsPadDataV2 ∨
  obj.otype = .PNCCDFullFrameV1 ∨ obj.otype = .PNCCDFramesV1 ∨
  obj.otype = .AcqirisDataDescV1 ∨ obj.otype = .CameraFrameV1 ∨
  obj.otype = .EventId ∨ obj.otype = .EvrDataV3 ∨ obj.otype = .EvrDataV4

/-- Loop body of `translate_core`: an event entry whose key type is in
`native_keys` is dispatched, others are passed over by the `if`. -/
def coreStep (t : Translator) (key : String) (native_keys : List PsanaType)
    (values : RecordDict) (e : NativeKey × PsanaObj) : Except String RecordDict :=
  if native_keys.contains e.1.ptype then
    translateObject t key values e.1 e.2
  else
    pure values

/-- Core translation for a registered category key
(`LCLSTranslator.translate_core`): every event entry whose key type is
registered for the category is dispatched; a raised exception aborts the
loop. -/
def translate_core (t : Translator) (evt : Event) (key : String) :
    Except String RecordDict :=
  evt.entries.foldlM (coreStep t key (c2n key)) []

/-- Possible results of `LCLSTranslator.translate`: a dict of records, the
EPICS view, or Python `None` (the fall-through return). -/
inductive TranslateResult where
  | records (d : RecordDict)
  | epics (e : EPICSdict)
  | nothing

/-- Loop body of the fall-through branch of `translate`: an entry whose native
key string equals the requested key is added as a `native` record (the
`self._s2c[...]` lookup raising `KeyError` for an unknown source) and marks
the key as found. -/
def nativeKeyStep (key : String) (acc : RecordDict × Bool)
    (e : NativeKey × PsanaObj) : Except String (RecordDict × Bool) :=
  if e.1.keyStr = key then
    match s2c e.1.src with
    | some srcName =>
      .ok (add_record acc.1 "native" (srcName ++ "[" ++ key ++ "]")
        (.native e.2) (some .ADU), true)
    | none => .error "KeyError: source not in s2c"
  else
    .ok acc

/-- Main translation entry point (`LCLSTranslator.translate`): a registered
category key goes to `translate_core`; `parameters`, `analysis` and `stream`
are special; otherwise entries whose native key string matches are collected,
and if none matches a message is printed and Python `None` is returned. -/
def translate (t : Translator) (evt : Event) (key : String) :
    Except String TranslateResult :=
  if (c2n key).isEmpty = false then
    (translate_core t evt key).map .records
  else if key = "parameters" then
    .ok (.epics (tr_epics t))
  else if key = "analysis" then
    .ok (.records [])
  else if key = "stream" then
    .ok (.records [])
  else
    match evt.entries.foldlM (nativeKeyStep key) (([], false) : RecordDict × Bool) with
    | .error e => .error e
    | .ok (values, found) =>
      if found then .ok (.records values) else .ok .nothing

/-- Floating-point event identifier (`LCLSTranslator.event_id`): the
`timestamp` attribute of the translated `Timestamp` record; `none` models the
exceptions Python would raise when the record is absent. -/
def event_id (t : Translator) (evt : Event) : Option ℚ :=
  match translate t evt "eventID" with
  | .ok (.records d) => (dictLookup d "Timestamp").bind (fun r => r.timestamp)
  | _ => none

/-- Packed 64-bit event identifier (`LCLSTranslator.event_id2`): the
`timestamp2` attribute of the translated `Timestamp` record. -/
def event_id2 (t : Translator) (evt : Event) : Option Nat :=
  match translate t evt "eventID" with
  | .ok (.records d) => (dictLookup d "Timestamp").bind (fun r => r.timestamp2)
  | _ => none

/-- State of the sharded (non-indexed) event loop of `next_event`: the
underlying event sequence of this process's `data_source.events()` iterator,
the consumed-event counter `self.i` (which is also the iterator position,
since every iterator access increments `i`), the `event_slice` start and step,
and the optional frame cap `self.N`. -/
structure ShardState (α : Type) where
  stream : List α
  i : Nat
  start : Nat
  step : Nat
  N : Option Nat
  deriving Repr

/-- Body of the sharded branch of `next_event`, with explicit fuel for the
skip loop `while (self.i % step) != start`. Each loop iteration pulls one
event from the iterator (a `StopIteration`, i.e. an exhausted stream, returns
`None`); after the loop the frame cap is checked and one more event is pulled
and returned. The loop strictly advances `i % step` towards `start`, so it
performs fewer than `step` iterations and fuel `step + 1` is exact
(`sharded_loop_spec` proves this). -/
def nextEventLoop {α : Type} (fuel : Nat) (s : ShardState α) :
    Option α × ShardState α :=
  match fuel with
  | 0 => (none, s)
  | fuel + 1 =>
    if s.i % s.step ≠ s.start then
      match s.stream.get? s.i with
      | none => (none, s)
      | some _ => nextEventLoop fuel { s with i := s.i + 1 }
    else
      match s.N with
      | some n =>
        if n ≤ s.i then (none, s)
        else
          match s.stream.get? s.i with
          | none => (none, s)
          | some e => (some e, { s with i := s.i + 1 })
      | none =>
        match s.stream.get? s.i with
        | none => (none, s)
        | some e => (some e, { s with i := s.i + 1 })

/-- One call of `LCLSTranslator.next_event` in sharded mode: the returned
event (`none` is the end-of-run `None`) and the state after the call. -/
def next_event {α : Type} (s : ShardState α) : Option α × ShardState α :=
  nextEventLoop (s.step + 1) s

/-- State of a sharded worker after `k` calls of `next_event`. -/
def stateAfter {α : Type} (s : ShardState α) : Nat → ShardState α
  | 0 => s
  | k + 1 => (next_event (stateAfter s k)).2

/-- Event returned by the `(k+1)`-st call of `next_event` of a worker. -/
def nthResult {α : Type} (s : ShardState α) (k : Nat) : Option α :=
  (next_event (stateAfter s k)).1

/-- Initial sharded state of worker `rank` among `workers` workers, as built
by the non-indexed, non-shmem branch of `__init__`: `i = 0` and
`event_slice = slice(rank, None, workers)`; no frame cap. -/
def shardInit {α : Type} (stream : List α) (rank workers : Nat) : ShardState α :=
  { stream := stream, i := 0, start := rank, step := workers, N := none }

/-- Canonical value of the consumed-event counter `self.i` of worker `r` after
`k` successful `next_event` calls: one past the position `r + (k-1)*W` of the
last event returned. -/
def startPos (r W k : Nat) : Nat :=
  if k = 0 then 0 else r + (k - 1) * W + 1

/-- Nested configuration sub-dict `state['LCLS']`. -/
structure LCLSSub where
  psanaConf : Option String := none
  calibDir : Option String := none
  dataSource : Option String := none

/-- Configuration mapping handed to `LCLSTranslator.__init__`: the flat and
nested key variants the source probes, the optional time/fiducial lists, and
the indexing options. -/
structure StateMap where
  psanaConfFlat : Option String := none
  calibDirFlat : Option String := none
  dataSourceFlat : Option String := none
  lcls : Option LCLSSub := none
  times : Option (List Int) := none
  fiducials : Option (List Nat) := none
  indexing : Bool := false
  index_offset : Option Nat := none

/-- Filesystem collaborator of `__init__` (`os.path.abspath`,
`os.path.isfile`). -/
structure FileSys where
  abspath : String → String
  isFile : String → Bool

/-- Command-line arguments read by `__init__` (`parse_cmdline_args`). -/
structure CmdArgs where
  lcls_run_number : Option Int := none
  lcls_number_of_frames : Option Nat := none
  deriving Repr, DecidableEq

/-- Iteration mode selected by `__init__`: explicit time/fiducial extraction,
sharded indexed access, or (sharded or shmem) stream access with an event
slice. -/
inductive IterMode where
  | byTimes (times : List Int) (fiducials : List Nat) (i : Nat) (dsrc : String)
  | indexed (i : Nat) (timestamps : List Nat) (dsrc : String)
  | stream (sliceStart sliceStep : Nat) (dsrc : String)
  deriving Repr, DecidableEq

/-- Translator state produced by a successful `__init__`. -/
structure TransState where
  N : Option Nat
  mode : IterMode
  deriving Repr, DecidableEq

/-- Python list slice `l[start::step]`. -/
def listSlice {α : Type} (l : List α) (start step : Nat) : List α :=
  (List.range l.length).filterMap
    (fun j => if start ≤ j ∧ (j - start) % step = 0 then l.get? j else none)

/-- Data source string after the command-line run number is appended
(`dsrc += ":run=%i"`). -/
def resolvedDsrc (args : CmdArgs) (dsrc : String) : String :=
  match args.lcls_run_number with
  | some n => dsrc ++ ":run=" ++ toString n
  | none => dsrc

/-- Python slice test `s[:len(p)] == p`, computed on the character lists. -/
def strBeginsWith (s p : String) : Bool :=
  p.toList.isPrefixOf s.toList

/-- Python slice test `s[-len(p):] == p`, computed on the character lists. -/
def strFinishesWith (s p : String) : Bool :=
  p.toList.isSuffixOf s.toList

/-- Resolution of the PsanaConf path of `__init__`: the flat
`state['LCLS/PsanaConf']` key first, then the nested one, absolute-pathed. -/
def psanaConfResolved (fs : FileSys) (state : StateMap) : Option String :=
  match state.psanaConfFlat with
  | some p => some (fs.abspath p)
  | none =>
    match state.lcls with
    | some sub =>
      match sub.psanaConf with
      | some p => some (fs.abspath p)
      | none => none
    | none => none

/-- Resolution of the DataSource string of `__init__`: the flat
`state['LCLS/DataSource']` key first, then the nested one. -/
def dataSourceResolved (state : StateMap) : Option String :=
  match state.dataSourceFlat with
  | some d => some d
  | none =>
    match state.lcls with
    | some sub => sub.dataSource
    | none => none

/-- First validation of `__init__`: a configured PsanaConf path that is not an
existing file is a `RuntimeError` (a found file is passed to
`psana.setConfigFile`, a black box). -/
def confCheck (fs : FileSys) (state : StateMap) : Except String Unit :=
  match psanaConfResolved fs state with
  | some path =>
    if fs.isFile path = false then
      throw ("RuntimeError: Could not find PsanaConf: " ++ path)
    else
      pure ()
  | none => pure ()

/-- Remainder of `__init__` after the PsanaConf check, in source order:
DataSource resolution, run-number append, then the times/fiducials, indexing
and stream branches. psana side effects (`setConfigFile`, `setOption`,
`DataSource`) are black boxes; `runTimes` stands for `run.times()` of the
indexed source; `rank` and `workers` are `ipc.mpi.slave_rank()` and
`ipc.mpi.nr_workers()`. -/
def initAfterConf (args : CmdArgs) (rank workers : Nat)
    (runTimes : List Nat) (state : StateMap) : Except String TransState := do
  let dsrc0 ← match dataSourceResolved state with
    | some d => pure d
    | none => throw "ValueError: You need to set the DataSource in the configuration"
  let N := args.lcls_number_of_frames
  let dsrc := resolvedDsrc args dsrc0
  if state.times.isSome ∨ state.fiducials.isSome then
    match state.times, state.fiducials with
    | some times, some fiducials =>
      if strBeginsWith dsrc "exp=" = false then
        throw "ValueError: Extraction of events with given times and fiducials only works when reading from XTC with index files"
      let dsrc := if strFinishesWith dsrc ":idx" then dsrc else dsrc ++ ":idx"
      return { N := N, mode := .byTimes times fiducials 0 dsrc }
    | _, _ =>
      throw "ValueError: Times or fiducials missing in state. Extraction of selected events expects both event identifiers"
  else if state.indexing then
    let dsrc := if strFinishesWith dsrc ":idx" then dsrc else dsrc ++ ":idx"
    let i := match state.index_offset with
      | some off => off / workers
      | none => 0
    let ts0 := match N with
      | some n => runTimes.take n
      | none => runTimes
    return { N := N, mode := .indexed i (listSlice ts0 rank workers) dsrc }
  else
    if strBeginsWith dsrc "shmem=" then
      return { N := N, mode := .stream 0 1 dsrc }
    else
      return { N := N, mode := .stream rank workers dsrc }

/-- Configuration validation and mode selection of `LCLSTranslator.__init__`:
the PsanaConf existence check followed by the rest of the constructor. -/
def initTranslator (fs : FileSys) (args : CmdArgs) (rank workers : Nat)
    (runTimes : List Nat) (state : StateMap) : Except String TransState := do
  confCheck fs state
  initAfterConf args rank workers runTimes state

/-- Success of the PsanaConf existence check: the resolved path, if any, is an
existing file. -/
def confOk (fs : FileSys) (state : StateMap) : Prop :=
  ∀ p, psanaConfResolved fs state = some p → fs.isFile p = true

/-- Closed-form photon-energy formula as the claim states it:
`44.42 * E^2` with
`E = dl2 - 0.001*(0.0016293*pc) - 0.0005*(0.63*dl2 + 0.0003*pc)` and
`dl2 = 0.001 * l3_energy`. Stated from the claim text, to be compared with
`tr_bld_data_ebeam`. -/
def specPhotonEnergyFormula (peak_current l3_energy : ℚ) : ℚ :=
  let dl2 := (0.001 : ℚ) * l3_energy
  let e := dl2 - (0.001 : ℚ) * ((0.0016293 : ℚ) * peak_current) -
    (0.0005 : ℚ) * ((0.63 : ℚ) * dl2 + (0.0003 : ℚ) * peak_current)
  (44.42 : ℚ) * e * e

/-- Soundness of the EPICS cache: every cached key has a PV in the store.
Holds for every dict reachable from `EPICSdict.init`. -/
def cacheSound (d : EPICSdict) : Prop :=
  ∀ k, d.cache.lookup k ≠ none → d.epics.getPV k ≠ none

/-- Translator with an empty psana environment, used to instantiate theorems
on concrete events. -/
def tNull : Translator :=
  { configStore := fun _ => none
    epicsStore := { pvNames := [], aliases := [], getPV := fun _ => none } }

/-- EPICS store holding a single PV named `P` with value 5. -/
def epicsStoreA : EpicsStore :=
  { pvNames := ["P"], aliases := [], getPV := fun k => if k = "P" then some ⟨5⟩ else none }

end LCLS

namespace LCLS

lemma tr_ebeam_not_v6 (values : RecordDict) (obj : PsanaObj)
    (hv : obj.otype ≠ .BldDataEBeamV6) :
    tr_bld_data_ebeam values obj =
      .ok (add_record values "photonEnergies" "photonEnergy"
        (.num (specPhotonEnergyFormula obj.ebeamPkCurrBC2 obj.ebeamL3Energy))
        (some .eV)) := by
  rw [tr_bld_data_ebeam]
  simp only [hv, if_false, if_pos rfl]
  rfl

lemma tr_ebeam_v6_direct (values : RecordDict) (obj : PsanaObj)
    (hv : obj.otype = .BldDataEBeamV6) (hne : obj.ebeamPhotonEnergy ≠ -1) :
    tr_bld_data_ebeam values obj =
      .ok (add_record values "photonEnergies" "photonEnergy"
        (.num obj.ebeamPhotonEnergy) (some .eV)) := by
  rw [tr_bld_data_ebeam]
  simp only [hv, if_pos rfl, if_neg hne]
  rfl

lemma tr_ebeam_v6_unbound (values : RecordDict) (obj : PsanaObj)
    (hv : obj.otype = .BldDataEBeamV6) (he : obj.ebeamPhotonEnergy = -1) :
    tr_bld_data_ebeam values obj = .error "UnboundLocalError: peak_current" := by
  rw [tr_bld_data_ebeam]
  simp only [hv, if_pos rfl, he]
  rfl

/-- C2: for every beam-energy record lacking a direct photon-energy field
(every EBeam version the code does not treat as `BldDataEBeamV6`), the photon
energy added to the result equals the closed-form formula `44.42 * E^2` with
`E = dl2 - 0.001*(0.0016293*pc) - 0.0005*(0.63*dl2 + 0.0003*pc)`,
`dl2 = 0.001 * ebeamL3Energy()`, `pc = ebeamPkCurrBC2()`. -/
theorem ebeam_derived_photon_energy_formula (values : RecordDict) (obj : PsanaObj)
    (hv : obj.otype ≠ .BldDataEBeamV6) :
    tr_bld_data_ebeam values obj =
      .ok (add_record values "photonEnergies" "photonEnergy"
        (.num (specPhotonEnergyFormula obj.ebeamPkCurrBC2 obj.ebeamL3Energy))
        (some .eV)) :=
  tr_ebeam_not_v6 values obj hv

/-- C2 witness: the literal example of the claim, peak current 1000 and L3
energy 10 GeV (`ebeamL3Energy() = 10000` MeV, so `dl2_energy_gev = 10`); the
derived photon energy is exactly the formula value on those inputs. -/
theorem ebeam_derived_photon_energy_formula_witness :
    tr_bld_data_ebeam []
        { otype := .BldDataEBeamV1, ebeamPkCurrBC2 := 1000, ebeamL3Energy := 10000 } =
      .ok (add_record [] "photonEnergies" "photonEnergy"
        (.num (specPhotonEnergyFormula 1000 10000)) (some .eV)) :=
  ebeam_derived_photon_energy_formula []
    { otype := .BldDataEBeamV1, ebeamPkCurrBC2 := 1000, ebeamL3Energy := 10000 }
    (by decide)

/-- C9: the direct photon-energy field is read only for `BldDataEBeamV6`
objects; every other EBeam version takes the derived-formula path
unconditionally; and a `BldDataEBeamV6` object whose `ebeamPhotonEnergy()` is
`-1` makes the fallback read the never-assigned locals `peak_current` and
`dl2_energy_gev`, so the call fails with an unbound-variable error. -/
theorem ebeam_v6_unbound_local (values : RecordDict) (obj : PsanaObj) :
    (obj.otype = .BldDataEBeamV6 → obj.ebeamPhotonEnergy = -1 →
      tr_bld_data_ebeam values obj = .error "UnboundLocalError: peak_current") ∧
    (obj.otype = .BldDataEBeamV6 → obj.ebeamPhotonEnergy ≠ -1 →
      tr_bld_data_ebeam values obj =
        .ok (add_record values "photonEnergies" "photonEnergy"
          (.num obj.ebeamPhotonEnergy) (some .eV))) ∧
    (obj.otype ≠ .BldDataEBeamV6 →
      tr_bld_data_ebeam values obj =
        .ok (add_record values "photonEnergies" "photonEnergy"
          (.num (specPhotonEnergyFormula obj.ebeamPkCurrBC2 obj.ebeamL3Energy))
          (some .eV))) :=
  ⟨fun hv he => tr_ebeam_v6_unbound values obj hv he,
   fun hv hne => tr_ebeam_v6_direct values obj hv hne,
   fun hv => tr_ebeam_not_v6 values obj hv⟩

/-- C9 witness: a V6 object with `ebeamPhotonEnergy() = -1` fails with the
unbound-variable error; a V6 object with a real reading returns it directly;
a V7 object takes the derived path. -/
theorem ebeam_v6_unbound_local_witness :
    tr_bld_data_ebeam [] { otype := .BldDataEBeamV6, ebeamPhotonEnergy := -1 } =
      .error "UnboundLocalError: peak_current" ∧
    tr_bld_data_ebeam [] { otype := .BldDataEBeamV6, ebeamPhotonEnergy := 600 } =
      .ok (add_record [] "photonEnergies" "photonEnergy" (.num 600) (some .eV)) ∧
    tr_bld_data_ebeam [] { otype := .BldDataEBeamV7, ebeamPkCurrBC2 := 1, ebeamL3Energy := 1 } =
      .ok (add_record [] "photonEnergies" "photonEnergy"
        (.num (specPhotonEnergyFormula 1 1)) (some .eV)) :=
  ⟨(ebeam_v6_unbound_local [] _).1 rfl (by norm_num),
   (ebeam_v6_unbound_local [] _).2.1 rfl (by norm_num),
   (ebeam_v6_unbound_local [] _).2.2 (by decide)⟩

lemma lookup_append_of_none {α : Type} [BEq α] {β : Type} {l1 l2 : List (α × β)}
    {k : α} (h : l1.lookup k = none) : (l1 ++ l2).lookup k = l2.lookup k := by
  induction l1 with
  | nil => rfl
  | cons p l ih =>
    rw [List.cons_append, List.lookup_cons] at *
    cases hkp : k == p.1 with
    | true => simp [hkp] at h
    | false =>
      simp only [hkp] at h ⊢
      exact ih h

/-- C4: the EPICS dict performs the store access and decode only on the first
item request for a name; a cached name is served from the cache with no store
access; after any successful request, repeating the request returns the
identical cached record, leaves the dict unchanged and performs no decode. -/
theorem epics_lazy_decode_cached (d : EPICSdict) (key : String) :
    (∀ r, d.cache.lookup key = some r → d.getItem key = (.ok r, d, 0)) ∧
    (d.cache.lookup key = none → (d.getItem key).2.2 = 1) ∧
    (∀ r d' n, d.getItem key = (.ok r, d', n) → d'.getItem key = (.ok r, d', 0)) := by
  refine ⟨fun r h => ?_, fun h => ?_, fun r d' n h => ?_⟩
  · rw [EPICSdict.getItem, h]
  · rw [EPICSdict.getItem, h]
    cases d.epics.getPV key <;> rfl
  · rw [EPICSdict.getItem] at h
    cases hc : d.cache.lookup key with
    | some r0 =>
      rw [hc] at h
      simp only [Prod.mk.injEq] at h
      obtain ⟨h1, h2, h3⟩ := h
      injection h1 with h1
      subst h1
      subst h2
      rw [EPICSdict.getItem, hc]
    | none =>
      rw [hc] at h
      cases hpv : d.epics.getPV key with
      | none =>
        rw [hpv] at h
        simp only [Prod.mk.injEq] at h
        exact absurd h.1 (by intro hca; cases hca)
      | some pv =>
        rw [hpv] at h
        simp only [Prod.mk.injEq] at h
        obtain ⟨h1, h2, h3⟩ := h
        injection h1 with h1
        subst h1
        subst h2
        have hlk : (d.cache ++
            [(key, ({ name := key, data := .num pv.value0, pv := some pv } : PRecord))]).lookup key
            = some ({ name := key, data := .num pv.value0, pv := some pv } : PRecord) := by
          rw [lookup_append_of_none hc, List.lookup_cons]
          simp
        simp only [EPICSdict.getItem, hlk]

/-- C4 witness: with a store holding PV `P = 5`, the first request on a fresh
dict decodes once, and the repeated request returns the identical cached
record with no second decode and no state change. -/
theorem epics_lazy_decode_cached_witness :
    ((EPICSdict.init epicsStoreA).getItem "P").2.2 = 1 ∧
    ({ epics := epicsStoreA,
       cache := [("P", { name := "P", data := .num 5, pv := some ⟨5⟩ })],
       keysMemo := none } : EPICSdict).getItem "P" =
      (.ok { name := "P", data := .num 5, pv := some ⟨5⟩ },
       { epics := epicsStoreA,
         cache := [("P", { name := "P", data := .num 5, pv := some ⟨5⟩ })],
         keysMemo := none }, 0) :=
  ⟨(epics_lazy_decode_cached (EPICSdict.init epicsStoreA) "P").2.1 rfl,
   (epics_lazy_decode_cached (EPICSdict.init epicsStoreA) "P").2.2 _ _ _ rfl⟩

/-- C5: for a cache-sound dict (as every dict reachable from `EPICSdict.init`
is), a key the EPICS store has no PV for makes `__getitem__` raise `KeyError`
and leaves the cache exactly as it was. -/
theorem epics_unknown_key_error (d : EPICSdict) (key : String)
    (hs : cacheSound d) (hpv : d.epics.getPV key = none) :
    d.getItem key = (.error (key ++ " is not a valid EPICS key"), d, 1) := by
  have hc : d.cache.lookup key = none := by
    by_contra h
    exact hs key h hpv
  rw [EPICSdict.getItem, hc, hpv]

/-- C5 helper: a fresh dict is cache-sound. -/
lemma cacheSound_init (e : EpicsStore) : cacheSound (EPICSdict.init e) := by
  intro k h
  exact absurd rfl h

/-- C5 helper: `getItem` preserves cache soundness. -/
lemma cacheSound_getItem (d : EPICSdict) (key : String) (hs : cacheSound d) :
    cacheSound (d.getItem key).2.1 := by
  rw [EPICSdict.getItem]
  cases hc : d.cache.lookup key with
  | some r => exact hs
  | none =>
    cases hpv : d.epics.getPV key with
    | none => exact hs
    | some pv =>
      intro k hk
      by_cases hkey : k = key
      · subst hkey
        intro h
        rw [h] at hpv
        cases hpv
      · cases hck : d.cache.lookup k with
        | some r2 =>
          exact hs k (by rw [hck]; exact Option.some_ne_none r2)
        | none =>
          exfalso
          apply hk
          show (d.cache ++ [(key, _)]).lookup k = none
          rw [lookup_append_of_none hck, List.lookup_cons]
          have hbeq : (k == key) = false := by
            simp [hkey]
          rw [hbeq]
          rfl

/-- C5 witness: on a fresh dict over the empty store, any request raises the
KeyError and the dict is unchanged. -/
theorem epics_unknown_key_error_witness :
    (EPICSdict.init tNull.epicsStore).getItem "missing" =
      (.error ("missing" ++ " is not a valid EPICS key"),
       EPICSdict.init tNull.epicsStore, 1) :=
  epics_unknown_key_error (EPICSdict.init tNull.epicsStore) "missing"
    (cacheSound_init _) rfl

lemma translateObject_unmatched (t : Translator) (key : String) (values : RecordDict)
    (k : NativeKey) (obj : PsanaObj) (h : matchesBranch key obj = false) :
    translateObject t key values k obj = .error "RuntimeError: not yet supported" := by
  rw [matchesBranch] at h
  simp only [decide_eq_false_iff_not, not_or] at h
  obtain ⟨h1, h2, h3, h4, h5, h6, h7, h8, h9, h10, h11, h12, h13⟩ := h
  rw [translateObject]
  rw [if_neg (not_or.mpr ⟨h1, h2⟩), if_neg h3, if_neg h4, if_neg h5, if_neg h6,
    if_neg h7, if_neg h8, if_neg h9, if_neg h10, if_neg h11,
    if_neg (not_or.mpr ⟨h12, h13⟩)]

lemma foldlM_coreStep_error (t : Translator) (key : String)
    (l : List (NativeKey × PsanaObj))
    (h : ∃ e ∈ l, (c2n key).contains e.1.ptype = true ∧ matchesBranch key e.2 = false) :
    ∀ values : RecordDict, ∃ msg, l.foldlM (coreStep t key (c2n key)) values = .error msg := by
  induction l with
  | nil =>
    obtain ⟨e, he, -⟩ := h
    exact absurd he (List.not_mem_nil e)
  | cons e l ih =>
    intro values
    rw [List.foldlM_cons]
    obtain ⟨e0, he0, hc0, hm0⟩ := h
    rcases List.mem_cons.mp he0 with rfl | he0tail
    · rw [coreStep, if_pos hc0, translateObject_unmatched t key values e0.1 e0.2 hm0]
      exact ⟨"RuntimeError: not yet supported", rfl⟩
    · cases hstep : coreStep t key (c2n key) values e with
      | error msg => exact ⟨msg, rfl⟩
      | ok v =>
        obtain ⟨msg, hmsg⟩ := ih ⟨e0, he0tail, hc0, hm0⟩ v
        exact ⟨msg, hmsg⟩

/-- C7: during `translate_core`, a native event object whose key type is
registered for the requested category but which matches no conversion branch
of the dispatch chain hits the final unsupported-type `RuntimeError`
(`translateObject_unmatched`-conjunct), and the presence of any such object
in the event makes `translate_core` fail rather than silently skip it. -/
theorem translate_core_unsupported_fatal (t : Translator) (evt : Event) (key : String) :
    (∀ values k obj, matchesBranch key obj = false →
      translateObject t key values k obj = .error "RuntimeError: not yet supported") ∧
    ((∃ e ∈ evt.entries, (c2n key).contains e.1.ptype = true ∧
        matchesBranch key e.2 = false) →
      ∃ msg, translate_core t evt key = .error msg) := by
  constructor
  · exact fun values k obj h => translateObject_unmatched t key values k obj h
  · intro h
    obtain ⟨msg, hmsg⟩ := foldlM_coreStep_error t key evt.entries h []
    exact ⟨msg, by rw [translate_core]; exact hmsg⟩

/-- C7 witness: an event holding, under a key typed `EventId` (registered for
category `eventID`), an object whose runtime type matches no conversion
branch; `translate_core` fails with the unsupported-type error. -/
theorem translate_core_unsupported_fatal_witness :
    ∃ msg,
      translate_core tNull
        ⟨[(⟨.EventId, "srcX", ""⟩, { otype := .other 0 })]⟩ "eventID" = .error msg :=
  (translate_core_unsupported_fatal tNull
    ⟨[(⟨.EventId, "srcX", ""⟩, { otype := .other 0 })]⟩ "eventID").2
    (by decide)

lemma foldlM_nativeKeyStep_skip (key : String) (l : List (NativeKey × PsanaObj))
    (acc : RecordDict × Bool) (h : ∀ e ∈ l, e.1.keyStr ≠ key) :
    l.foldlM (nativeKeyStep key) acc = .ok acc := by
  induction l generalizing acc with
  | nil => rfl
  | cons e l ih =>
    rw [List.foldlM_cons, nativeKeyStep, if_neg (h e (List.mem_cons_self e l))]
    show l.foldlM (nativeKeyStep key) acc = .ok acc
    exact ih acc (fun e' he' => h e' (List.mem_cons_of_mem e he'))

/-- C10: a key that is no registered category, none of `parameters`,
`analysis`, `stream`, and matches no native key string of the event makes
`translate` return Python `None` (after printing a message): it neither
raises nor returns an empty dict. -/
theorem translate_unknown_key_returns_none (t : Translator) (evt : Event) (key : String)
    (hcat : c2n key = [])
    (hp : key ≠ "parameters") (ha : key ≠ "analysis") (hs : key ≠ "stream")
    (hk : ∀ e ∈ evt.entries, e.1.keyStr ≠ key) :
    translate t evt key = .ok .nothing := by
  rw [translate, hcat]
  rw [if_neg (by simp), if_neg hp, if_neg ha, if_neg hs,
    foldlM_nativeKeyStep_skip key evt.entries ([], false) hk]
  rfl

/-- C10 witness: requesting an unknown key on a one-entry event returns
`None`, not an error and not an empty dict. -/
theorem translate_unknown_key_returns_none_witness :
    translate tNull ⟨[(⟨.EventId, "srcX", "aKey"⟩, { otype := .EventId })]⟩ "zzz" =
      .ok .nothing :=
  translate_unknown_key_returns_none tNull
    ⟨[(⟨.EventId, "srcX", "aKey"⟩, { otype := .EventId })]⟩ "zzz"
    (by decide) (by decide) (by decide) (by decide) (by decide)

lemma mem_foldl_insertDedup (c : String) (cs : List String) (acc : List String) :
    c ∈ cs.foldl (fun acc2 c2 => if c2 ∈ acc2 then acc2 else acc2 ++ [c2]) acc ↔
      c ∈ acc ∨ c ∈ cs := by
  induction cs generalizing acc with
  | nil => simp
  | cons c2 cs ih =>
    rw [List.foldl_cons]
    by_cases h : c2 ∈ acc
    · rw [if_pos h, ih]
      simp only [List.mem_cons]
      constructor
      · rintro (hc | hc)
        · exact Or.inl hc
        · exact Or.inr (Or.inr hc)
      · rintro (hc | rfl | hc)
        · exact Or.inl hc
        · exact Or.inl h
        · exact Or.inr hc
    · rw [if_neg h, ih]
      simp only [List.mem_append, List.mem_singleton, List.mem_cons]
      tauto

lemma mem_commonKeys (c : String) (l : List (NativeKey × PsanaObj)) (acc : List String) :
    c ∈ l.foldl
        (fun acc e =>
          (native_to_common e.1).foldl
            (fun acc2 c2 => if c2 ∈ acc2 then acc2 else acc2 ++ [c2]) acc)
        acc ↔
      c ∈ acc ∨ ∃ e ∈ l, c ∈ native_to_common e.1 := by
  induction l generalizing acc with
  | nil => simp
  | cons e l ih =>
    rw [List.foldl_cons, ih, mem_foldl_insertDedup]
    constructor
    · rintro ((hc | hc) | ⟨e', he', hc⟩)
      · exact Or.inl hc
      · exact Or.inr ⟨e, List.mem_cons_self e l, hc⟩
      · exact Or.inr ⟨e', List.mem_cons_of_mem e he', hc⟩
    · rintro (hc | ⟨e', he', hc⟩)
      · exact Or.inl (Or.inl hc)
      · rcases List.mem_cons.mp he' with rfl | htail
        · exact Or.inl (Or.inr hc)
        · exact Or.inr ⟨e', htail, hc⟩

lemma mem_native_to_common (c : String) (k : NativeKey) :
    c ∈ native_to_common k ↔ n2c k.ptype = some c := by
  rw [native_to_common]
  cases h : n2c k.ptype with
  | none => simp
  | some a => simp [eq_comm]

/-- C1 counterexample: on the empty event the claim "event_keys yields exactly
the set of categories of the registered types present in the event" is false:
`event_keys` also contains `parameters`, which is the category of no present
type. -/
theorem event_keys_exactly_categories_counterexample :
    ¬ (∀ c : String,
        c ∈ event_keys ⟨[]⟩ ↔ ∃ e ∈ (⟨[]⟩ : Event).entries, n2c e.1.ptype = some c) := by
  intro h
  have hp : "parameters" ∈ event_keys (⟨[]⟩ : Event) := by
    simp [event_keys]
  obtain ⟨e, he, -⟩ := (h "parameters").mp hp
  exact absurd he (List.not_mem_nil e)

/-- C1 (amended): category resolution returns exactly the singleton of the
registered category for a registered type and the empty list for an
unregistered one, and `event_keys` yields exactly the categories of the
registered types present in the event (unregistered types silently omitted)
plus the two fixed entries `parameters` and `analysis`. -/
theorem native_to_common_registry (evt : Event) (k : NativeKey) (cat : String) :
    (n2c k.ptype = some cat → native_to_common k = [cat]) ∧
    (n2c k.ptype = none → native_to_common k = []) ∧
    (∀ c : String,
      c ∈ event_keys evt ↔
        ((∃ e ∈ evt.entries, n2c e.1.ptype = some c) ∨
          c = "parameters" ∨ c = "analysis")) := by
  refine ⟨fun h => by rw [native_to_common, h],
          fun h => by rw [native_to_common, h],
          fun c => ?_⟩
  show c ∈ _ ++ ["parameters"] ++ ["analysis"] ↔ _
  rw [List.mem_append, List.mem_append, mem_commonKeys]
  simp only [mem_native_to_common, List.mem_singleton, List.not_mem_nil, false_or]
  exact or_assoc

/-- C1 witness: a key typed `EventId` resolves to exactly `[eventID]`, an
unregistered type resolves to `[]`, and `eventID` is among the event keys of
an event holding an `EventId` entry. -/
theorem native_to_common_registry_witness :
    native_to_common ⟨.EventId, "srcA", ""⟩ = ["eventID"] ∧
    native_to_common ⟨.other 3, "srcA", ""⟩ = [] ∧
    "eventID" ∈ event_keys ⟨[(⟨.EventId, "srcA", ""⟩, { otype := .EventId })]⟩ :=
  ⟨(native_to_common_registry ⟨[]⟩ ⟨.EventId, "srcA", ""⟩ "eventID").1 rfl,
   (native_to_common_registry ⟨[]⟩ ⟨.other 3, "srcA", ""⟩ "x").2.1 rfl,
   ((native_to_common_registry ⟨[(⟨.EventId, "srcA", ""⟩, { otype := .EventId })]⟩
      ⟨.EventId, "srcA", ""⟩ "eventID").2.2 "eventID").mpr
    (Or.inl ⟨(⟨.EventId, "srcA", ""⟩, { otype := .EventId }), by decide, rfl⟩)⟩

lemma translate_eventID_single (t : Translator) (k : NativeKey) (obj : PsanaObj)
    (hk : k.ptype = .EventId) (hobj : obj.otype = .EventId) :
    translate t ⟨[(k, obj)]⟩ "eventID" = .ok (.records (tr_event_id [] obj)) := by
  have hc : c2n "eventID" = [.EventId] := by decide
  rw [translate, hc]
  rw [if_pos (show ([PsanaType.EventId] : List PsanaType).isEmpty = false from rfl),
    translate_core, hc]
  simp only [List.foldlM_cons, List.foldlM_nil, coreStep, translateObject, hk, hobj]
  rfl

lemma event_id_single (t : Translator) (k : NativeKey) (obj : PsanaObj)
    (hk : k.ptype = .EventId) (hobj : obj.otype = .EventId) :
    event_id t ⟨[(k, obj)]⟩ =
      some ((obj.time.1 : ℚ) + (obj.time.2 : ℚ) * (1e-9 : ℚ)) ∧
    event_id2 t ⟨[(k, obj)]⟩ = some (obj.time.1 <<< 32 ||| obj.time.2) := by
  rw [event_id, event_id2, translate_eventID_single t k obj hk hobj]
  constructor <;> rfl

lemma float_ts_mono {s1 n1 s2 n2 : Nat}
    (hlex : s1 < s2 ∨ (s1 = s2 ∧ n1 ≤ n2)) (h1 : n1 < 10 ^ 9) :
    (s1 : ℚ) + (n1 : ℚ) * (1e-9 : ℚ) ≤ (s2 : ℚ) + (n2 : ℚ) * (1e-9 : ℚ) := by
  have e : (1e-9 : ℚ) = 1 / 10 ^ 9 := by norm_num
  rcases hlex with h | ⟨rfl, h⟩
  · have hs : (s1 : ℚ) + 1 ≤ (s2 : ℚ) := by exact_mod_cast h
    have hb : (n1 : ℚ) * (1e-9 : ℚ) < 1 := by
      rw [e, mul_one_div, div_lt_one (by norm_num)]
      exact_mod_cast h1
    have hnn : 0 ≤ (n2 : ℚ) * (1e-9 : ℚ) := by
      rw [e]
      positivity
    linarith
  · have hn : (n1 : ℚ) ≤ (n2 : ℚ) := by exact_mod_cast h
    have := mul_le_mul_of_nonneg_right hn (by rw [e]; positivity :
      (0 : ℚ) ≤ (1e-9 : ℚ))
    linarith

lemma packed_ts_mono {s1 n1 s2 n2 : Nat}
    (hlex : s1 < s2 ∨ (s1 = s2 ∧ n1 ≤ n2)) (h1 : n1 < 2 ^ 32) (h2 : n2 < 2 ^ 32) :
    s1 <<< 32 ||| n1 ≤ s2 <<< 32 ||| n2 := by
  have e1 : s1 <<< 32 ||| n1 = 2 ^ 32 * s1 + n1 := by
    rw [Nat.shiftLeft_eq, Nat.mul_comm s1 (2 ^ 32), ← Nat.mul_add_lt_is_or h1]
  have e2 : s2 <<< 32 ||| n2 = 2 ^ 32 * s2 + n2 := by
    rw [Nat.shiftLeft_eq, Nat.mul_comm s2 (2 ^ 32), ← Nat.mul_add_lt_is_or h2]
  have ep : (2 : Nat) ^ 32 = 4294967296 := by norm_num
  rw [e1, e2, ep] at *
  rcases hlex with h | ⟨rfl, h⟩ <;> omega

/-- C6 counterexample: with nanoseconds merely below `2^32` (as the claim
states) the floating-point identifier is not monotone: the timestamp pairs
`(0, 2000000000)` and `(1, 0)` are lexicographically increasing with both
nanosecond fields below `2^32`, yet `event_id` drops from 2 to 1. -/
theorem event_id_monotone_counterexample :
    ((0 : Nat) < 1 ∨ ((0 : Nat) = 1 ∧ (2000000000 : Nat) ≤ 0)) ∧
    (2000000000 : Nat) < 2 ^ 32 ∧ (0 : Nat) < 2 ^ 32 ∧
    event_id tNull
      ⟨[(⟨.EventId, "s", ""⟩, { otype := .EventId, time := (0, 2000000000) })]⟩ =
      some 2 ∧
    event_id tNull
      ⟨[(⟨.EventId, "s", ""⟩, { otype := .EventId, time := (1, 0) })]⟩ =
      some 1 ∧
    ¬ ((2 : ℚ) ≤ 1) := by
  refine ⟨Or.inl (by norm_num), by norm_num, by norm_num, ?_, ?_, by norm_num⟩
  · rw [(event_id_single tNull ⟨.EventId, "s", ""⟩
      { otype := .EventId, time := (0, 2000000000) } rfl rfl).1]
    norm_num
  · rw [(event_id_single tNull ⟨.EventId, "s", ""⟩
      { otype := .EventId, time := (1, 0) } rfl rfl).1]
    norm_num

/-- C6 (amended): both identifiers are derived from the same underlying
`(seconds, nanoseconds)` pair of the EventId record, and across events of a
run both are monotonically non-decreasing whenever the pairs are
lexicographically non-decreasing with nanoseconds below `10^9` (the packed
64-bit identifier needs only nanoseconds below `2^32`). -/
theorem event_id_same_pair_monotone (t : Translator) (k1 k2 : NativeKey)
    (o1 o2 : PsanaObj) (hk1 : k1.ptype = .EventId) (ho1 : o1.otype = .EventId)
    (hk2 : k2.ptype = .EventId) (ho2 : o2.otype = .EventId) :
    event_id t ⟨[(k1, o1)]⟩ =
      some ((o1.time.1 : ℚ) + (o1.time.2 : ℚ) * (1e-9 : ℚ)) ∧
    event_id2 t ⟨[(k1, o1)]⟩ = some (o1.time.1 <<< 32 ||| o1.time.2) ∧
    event_id t ⟨[(k2, o2)]⟩ =
      some ((o2.time.1 : ℚ) + (o2.time.2 : ℚ) * (1e-9 : ℚ)) ∧
    event_id2 t ⟨[(k2, o2)]⟩ = some (o2.time.1 <<< 32 ||| o2.time.2) ∧
    ((o1.time.1 < o2.time.1 ∨ (o1.time.1 = o2.time.1 ∧ o1.time.2 ≤ o2.time.2)) →
      (o1.time.2 < 10 ^ 9 →
        (o1.time.1 : ℚ) + (o1.time.2 : ℚ) * (1e-9 : ℚ) ≤
          (o2.time.1 : ℚ) + (o2.time.2 : ℚ) * (1e-9 : ℚ)) ∧
      (o1.time.2 < 2 ^ 32 → o2.time.2 < 2 ^ 32 →
        o1.time.1 <<< 32 ||| o1.time.2 ≤ o2.time.1 <<< 32 ||| o2.time.2)) :=
  ⟨(event_id_single t k1 o1 hk1 ho1).1,
   (event_id_single t k1 o1 hk1 ho1).2,
   (event_id_single t k2 o2 hk2 ho2).1,
   (event_id_single t k2 o2 hk2 ho2).2,
   fun hlex =>
    ⟨fun h1 => float_ts_mono hlex h1,
     fun h1 h2 => packed_ts_mono hlex h1 h2⟩⟩

/-- C6 witness: for timestamp pairs `(1, 100)` and `(2, 50)` both identifiers
are computed from the pairs and both are non-decreasing. -/
theorem event_id_same_pair_monotone_witness :
    event_id tNull
      ⟨[(⟨.EventId, "s", ""⟩, { otype := .EventId, time := (1, 100) })]⟩ =
      some ((1 : ℚ) + (100 : ℚ) * (1e-9 : ℚ)) ∧
    event_id2 tNull
      ⟨[(⟨.EventId, "s", ""⟩, { otype := .EventId, time := (1, 100) })]⟩ =
      some (1 <<< 32 ||| 100) ∧
    ((1 : ℚ) + (100 : ℚ) * (1e-9 : ℚ) ≤ (2 : ℚ) + (50 : ℚ) * (1e-9 : ℚ)) ∧
    ((1 : Nat) <<< 32 ||| 100 ≤ 2 <<< 32 ||| 50) := by
  have h := event_id_same_pair_monotone tNull ⟨.EventId, "s", ""⟩ ⟨.EventId, "s", ""⟩
    { otype := .EventId, time := (1, 100) } { otype := .EventId, time := (2, 50) }
    rfl rfl rfl rfl
  refine ⟨h.1, h.2.1, ?_, ?_⟩
  · exact (h.2.2.2.2 (Or.inl (by norm_num))).1 (by norm_num)
  · exact (h.2.2.2.2 (Or.inl (by norm_num))).2 (by norm_num) (by norm_num)

lemma confCheck_of_ok (fs : FileSys) (state : StateMap) (h : confOk fs state) :
    confCheck fs state = .ok () := by
  rw [confCheck]
  cases hp : psanaConfResolved fs state with
  | none => rfl
  | some p =>
    show (if fs.isFile p = false then
        (throw ("RuntimeError: Could not find PsanaConf: " ++ p) : Except String Unit)
      else pure ()) = .ok ()
    rw [h p hp]
    rfl

lemma initTranslator_split (fs : FileSys) (args : CmdArgs) (rank workers : Nat)
    (runTimes : List Nat) (state : StateMap) (h : confOk fs state) :
    initTranslator fs args rank workers runTimes state =
      initAfterConf args rank workers runTimes state := by
  show confCheck fs state >>= _ = _
  rw [confCheck_of_ok fs state h]
  rfl

/-- C8 counterexample: with `times` of length 1 and `fiducials` of length 0
(mismatched), an indexed `exp=` source and no PsanaConf, initialization
succeeds — the claimed fail-fast check of mismatched time/fiducial list
lengths does not exist in `__init__`. -/
theorem initTranslator_mismatched_lengths_counterexample :
    (initTranslator ⟨id, fun _ => true⟩ {} 0 1 []
        { dataSourceFlat := some "exp=amo86615", times := some [7],
          fiducials := some [] }).isOk = true ∧
    ([7] : List Int).length ≠ ([] : List Nat).length := by
  constructor
  · rfl
  · decide

/-- C8 (amended): `__init__` fails fast, before any event is read, when the
configured PsanaConf path is not an existing file, when no DataSource is
configured, when exactly one of `times` and `fiducials` is present, and when
both are present but the source is not an indexed `exp=` XTC source; it does
NOT validate that the `times` and `fiducials` lists have equal lengths — with
both present and an `exp=` source it succeeds whatever the lengths. -/
theorem initTranslator_fails_fast (fs : FileSys) (args : CmdArgs)
    (rank workers : Nat) (runTimes : List Nat) (state : StateMap) :
    (∀ p, psanaConfResolved fs state = some p → fs.isFile p = false →
      initTranslator fs args rank workers runTimes state =
        .error ("RuntimeError: Could not find PsanaConf: " ++ p)) ∧
    (confOk fs state → dataSourceResolved state = none →
      initTranslator fs args rank workers runTimes state =
        .error "ValueError: You need to set the DataSource in the configuration") ∧
    (confOk fs state → dataSourceResolved state ≠ none →
      state.times.isSome ≠ state.fiducials.isSome →
      ∃ msg, initTranslator fs args rank workers runTimes state = .error msg ∧
        msg =
          "ValueError: Times or fiducials missing in state. Extraction of selected events expects both event identifiers") ∧
    (∀ d times fiducials, confOk fs state → dataSourceResolved state = some d →
      state.times = some times → state.fiducials = some fiducials →
      strBeginsWith (resolvedDsrc args d) "exp=" = false →
      initTranslator fs args rank workers runTimes state =
        .error "ValueError: Extraction of events with given times and fiducials only works when reading from XTC with index files") ∧
    (∀ d times fiducials, confOk fs state → dataSourceResolved state = some d →
      state.times = some times → state.fiducials = some fiducials →
      strBeginsWith (resolvedDsrc args d) "exp=" = true →
      (initTranslator fs args rank workers runTimes state).isOk = true) := by
  refine ⟨fun p hp hfile => ?_, fun hc hds => ?_, fun hc hds hxor => ?_,
          fun d times fiducials hc hds ht hf hexp => ?_,
          fun d times fiducials hc hds ht hf hexp => ?_⟩
  · show confCheck fs state >>= _ = _
    rw [confCheck, hp]
    show ((if fs.isFile p = false then
        (throw ("RuntimeError: Could not find PsanaConf: " ++ p) : Except String Unit)
      else pure ()) >>= _) = _
    rw [hfile]
    rfl
  · rw [initTranslator_split fs args rank workers runTimes state hc]
    rw [initAfterConf, hds]
    rfl
  · rw [initTranslator_split fs args rank workers runTimes state hc]
    obtain ⟨d, hd⟩ := Option.ne_none_iff_exists'.mp hds
    refine ⟨_, ?_, rfl⟩
    rw [initAfterConf, hd]
    cases ht : state.times with
    | some times =>
      cases hf : state.fiducials with
      | some fiducials => simp [ht, hf] at hxor
      | none => rfl
    | none =>
      cases hf : state.fiducials with
      | some fiducials => rfl
      | none => simp [ht, hf] at hxor
  · rw [initTranslator_split fs args rank workers runTimes state hc]
    rw [initAfterConf, hds, ht, hf]
    show (pure d >>= _) = _
    simp only [pure_bind]
    rw [if_pos (show (some times).isSome = true ∨ (some fiducials).isSome = true from
        Or.inl rfl),
      if_pos hexp]
    rfl
  · rw [initTranslator_split fs args rank workers runTimes state hc]
    rw [initAfterConf, hds, ht, hf]
    show ((pure d >>= _ : Except String TransState)).isOk = true
    simp only [pure_bind]
    rw [if_pos (show (some times).isSome = true ∨ (some fiducials).isSome = true from
        Or.inl rfl),
      if_neg (show ¬ strBeginsWith (resolvedDsrc args d) "exp=" = false by simp [hexp])]
    rfl

/-- C8 witness: a configuration with no DataSource key fails at
initialization with the ValueError; a configuration asking for times and
fiducials on a non-`exp=` source fails with the extraction ValueError. -/
theorem initTranslator_fails_fast_witness :
    initTranslator ⟨id, fun _ => true⟩ {} 0 1 [] {} =
      .error "ValueError: You need to set the DataSource in the configuration" ∧
    initTranslator ⟨id, fun _ => true⟩ {} 0 1 []
        { dataSourceFlat := some "shmem=psana", times := some [0], fiducials := some [1] } =
      .error "ValueError: Extraction of events with given times and fiducials only works when reading from XTC with index files" :=
  ⟨(initTranslator_fails_fast ⟨id, fun _ => true⟩ {} 0 1 [] {}).2.1
    (fun p hp => nomatch hp) rfl,
   (initTranslator_fails_fast ⟨id, fun _ => true⟩ {} 0 1 []
      { dataSourceFlat := some "shmem=psana", times := some [0],
        fiducials := some [1] }).2.2.2.1 "shmem=psana" [0] [1]
    (fun p hp => nomatch hp) rfl rfl rfl (by decide)⟩

lemma mod_shift_ne {W r d i : Nat} (hr : r < W) (hd : d < W) (hdpos : 0 < d)
    (ht : (i + d) % W = r) : i % W ≠ r := by
  intro hi
  have h1 : (i + d) % W = (i % W + d % W) % W := Nat.add_mod i d W
  rw [Nat.mod_eq_of_lt hd, hi, ht] at h1
  rcases Nat.lt_or_ge (r + d) W with hlt | hge
  · rw [Nat.mod_eq_of_lt hlt] at h1
    omega
  · rw [Nat.mod_eq_sub_mod hge, Nat.mod_eq_of_lt (by omega : r + d - W < W)] at h1
    omega

lemma nextEventLoop_spec {α : Type} (W r : Nat) (hr : r < W) :
    ∀ (d : Nat), d < W → ∀ (fuel : Nat), d < fuel → ∀ (stream : List α) (i : Nat),
      (i + d) % W = r →
      ((stream.get? (i + d) = none →
        (nextEventLoop fuel ⟨stream, i, r, W, none⟩).1 = none ∧
        stream.length ≤ (nextEventLoop fuel ⟨stream, i, r, W, none⟩).2.i ∧
        (nextEventLoop fuel ⟨stream, i, r, W, none⟩).2.stream = stream ∧
        (nextEventLoop fuel ⟨stream, i, r, W, none⟩).2.start = r ∧
        (nextEventLoop fuel ⟨stream, i, r, W, none⟩).2.step = W ∧
        (nextEventLoop fuel ⟨stream, i, r, W, none⟩).2.N = none) ∧
      (∀ e, stream.get? (i + d) = some e →
        nextEventLoop fuel ⟨stream, i, r, W, none⟩ =
          (some e, ⟨stream, i + d + 1, r, W, none⟩))) := by
  intro d
  induction d with
  | zero =>
    intro _ fuel hfuel stream i ht
    obtain ⟨f, rfl⟩ : ∃ f, fuel = f + 1 := ⟨fuel - 1, by omega⟩
    rw [Nat.add_zero] at ht
    have hcond : ¬ (i % W ≠ r) := not_not.mpr ht
    constructor
    · intro hg
      rw [Nat.add_zero] at hg
      rw [nextEventLoop, if_neg hcond, hg]
      exact ⟨rfl, List.get?_eq_none.mp hg, rfl, rfl, rfl, rfl⟩
    · intro e hg
      rw [Nat.add_zero] at hg
      rw [nextEventLoop, if_neg hcond, hg]
  | succ d ih =>
    intro hd fuel hfuel stream i ht
    obtain ⟨f, rfl⟩ : ∃ f, fuel = f + 1 := ⟨fuel - 1, by omega⟩
    have hne : i % W ≠ r := mod_shift_ne hr hd (Nat.succ_pos d) ht
    have hshift : i + 1 + d = i + (d + 1) := by omega
    cases hg0 : stream.get? i with
    | none =>
      have hlen : stream.length ≤ i := List.get?_eq_none.mp hg0
      constructor
      · intro _
        rw [nextEventLoop, if_pos hne, hg0]
        exact ⟨rfl, hlen, rfl, rfl, rfl, rfl⟩
      · intro e hg
        have : stream.get? (i + (d + 1)) = none :=
          List.get?_eq_none.mpr (le_trans hlen (by omega))
        rw [this] at hg
        cases hg
    | some a =>
      have ihs := ih (by omega) f (by omega) stream (i + 1)
        (by rw [hshift]; exact ht)
      rw [hshift] at ihs
      constructor
      · intro hg
        rw [nextEventLoop, if_pos hne, hg0]
        exact ihs.1 hg
      · intro e hg
        rw [nextEventLoop, if_pos hne, hg0]
        exact ihs.2 e hg

lemma next_event_spec {α : Type} (stream : List α) (W r i d : Nat)
    (hr : r < W) (hd : d < W) (ht : (i + d) % W = r) :
    ((stream.get? (i + d) = none →
      (next_event ⟨stream, i, r, W, none⟩).1 = none ∧
      stream.length ≤ (next_event ⟨stream, i, r, W, none⟩).2.i ∧
      (next_event ⟨stream, i, r, W, none⟩).2.stream = stream ∧
      (next_event ⟨stream, i, r, W, none⟩).2.start = r ∧
      (next_event ⟨stream, i, r, W, none⟩).2.step = W ∧
      (next_event ⟨stream, i, r, W, none⟩).2.N = none) ∧
    (∀ e, stream.get? (i + d) = some e →
      next_event ⟨stream, i, r, W, none⟩ =
        (some e, ⟨stream, i + d + 1, r, W, none⟩))) :=
  nextEventLoop_spec W r hr d hd (W + 1) (by omega) stream i ht

lemma startPos_zero (r W : Nat) : startPos r W 0 = 0 := rfl

lemma startPos_succ (r W k : Nat) : startPos r W (k + 1) = r + k * W + 1 := by
  simp [startPos]

lemma next_event_exhausted {α : Type} (s : ShardState α)
    (h : s.stream.length ≤ s.i) : next_event s = (none, s) := by
  have hg : s.stream.get? s.i = none := List.get?_eq_none.mpr h
  rw [next_event, nextEventLoop]
  by_cases hc : s.i % s.step ≠ s.start
  · rw [if_pos hc, hg]
  · rw [if_neg hc]
    cases s.N with
    | none =>
      dsimp only
      rw [hg]
    | some n =>
      dsimp only
      by_cases hn : n ≤ s.i
      · rw [if_pos hn]
      · rw [if_neg hn, hg]

lemma stateAfter_inv {α : Type} (stream : List α) (r W : Nat)
    (hW : 0 < W) (hr : r < W) (k : Nat) :
    (stateAfter (shardInit stream r W) k).stream = stream ∧
    (stateAfter (shardInit stream r W) k).start = r ∧
    (stateAfter (shardInit stream r W) k).step = W ∧
    (stateAfter (shardInit stream r W) k).N = none ∧
    ((stateAfter (shardInit stream r W) k).i = startPos r W k ∨
      (stream.length ≤ (stateAfter (shardInit stream r W) k).i ∧ 1 ≤ k ∧
        stream.length ≤ r + (k - 1) * W)) := by
  induction k with
  | zero => exact ⟨rfl, rfl, rfl, rfl, Or.inl rfl⟩
  | succ k ih =>
    obtain ⟨hstream, hstart, hstep, hN, hi⟩ := ih
    set s := stateAfter (shardInit stream r W) k with hs
    have hnext : stateAfter (shardInit stream r W) (k + 1) = (next_event s).2 := rfl
    rcases hi with hcan | ⟨hlen, hk1, hbound⟩
    · have hsval : s = ⟨stream, startPos r W k, r, W, none⟩ := by
        have heta : s = ⟨s.stream, s.i, s.start, s.step, s.N⟩ := rfl
        rw [hstream, hcan, hstart, hstep, hN] at heta
        exact heta
      have hd : startPos r W k + (r + k * W - startPos r W k) = r + k * W := by
        cases k with
        | zero => rw [startPos_zero]; omega
        | succ k => rw [startPos_succ, Nat.succ_mul]; omega
      have hdlt : r + k * W - startPos r W k < W := by
        cases k with
        | zero => rw [startPos_zero]; omega
        | succ k => rw [startPos_succ, Nat.succ_mul]; omega
      have hmod : (startPos r W k + (r + k * W - startPos r W k)) % W = r := by
        rw [hd]
        rw [Nat.add_mul_mod_self_right]
        exact Nat.mod_eq_of_lt hr
      have hspec := next_event_spec stream W r (startPos r W k)
        (r + k * W - startPos r W k) hr hdlt hmod
      rw [hd] at hspec
      cases hg : stream.get? (r + k * W) with
      | none =>
        obtain ⟨h1, h2, h3, h4, h5, h6⟩ := hspec.1 hg
        rw [hnext, hsval]
        refine ⟨h3, h4, h5, h6, Or.inr ⟨h2, by omega, ?_⟩⟩
        simpa using List.get?_eq_none.mp hg
      | some e =>
        have heq := hspec.2 e hg
        rw [hnext, hsval, heq]
        exact ⟨rfl, rfl, rfl, rfl, Or.inl (by rw [startPos_succ])⟩
    · have hex : next_event s = (none, s) := by
        apply next_event_exhausted
        rw [hstream]
        exact hlen
      rw [hnext, hex]
      refine ⟨hstream, hstart, hstep, hN, Or.inr ⟨hlen, by omega, ?_⟩⟩
      have : r + (k - 1) * W ≤ r + k * W := by
        have : (k - 1) * W ≤ k * W := Nat.mul_le_mul_right W (by omega)
        omega
      simpa using le_trans hbound this

/-- C3: in sharded (non-indexed, non-shmem) mode with `W` workers and worker
rank `r < W`, the `(k+1)`-st `next_event` call of worker `r` returns exactly
the event at zero-based stream position `r + k*W` (so the worker consumes as
returned events exactly the positions congruent to `r` modulo `W`, in order),
and for every position `p` the worker `p % W` returns the stream element at
`p` as its `(p / W)`-th result, so the union of all workers' streams, ordered
by position, is the original event sequence. -/
theorem sharded_worker_modulo {α : Type} (stream : List α) (W : Nat) (hW : 0 < W) :
    (∀ r k, r < W →
      nthResult (shardInit stream r W) k = stream.get? (r + k * W)) ∧
    (∀ p, nthResult (shardInit stream (p % W) W) (p / W) = stream.get? p) := by
  have main : ∀ r k, r < W →
      nthResult (shardInit stream r W) k = stream.get? (r + k * W) := by
    intro r k hr
    obtain ⟨hstream, hstart, hstep, hN, hi⟩ := stateAfter_inv stream r W hW hr k
    set s := stateAfter (shardInit stream r W) k with hs
    rw [nthResult, ← hs]
    rcases hi with hcan | ⟨hlen, hk1, hbound⟩
    · have hsval : s = ⟨stream, startPos r W k, r, W, none⟩ := by
        have heta : s = ⟨s.stream, s.i, s.start, s.step, s.N⟩ := rfl
        rw [hstream, hcan, hstart, hstep, hN] at heta
        exact heta
      have hd : startPos r W k + (r + k * W - startPos r W k) = r + k * W := by
        cases k with
        | zero => rw [startPos_zero]; omega
        | succ k => rw [startPos_succ, Nat.succ_mul]; omega
      have hdlt : r + k * W - startPos r W k < W := by
        cases k with
        | zero => rw [startPos_zero]; omega
        | succ k => rw [startPos_succ, Nat.succ_mul]; omega
      have hmod : (startPos r W k + (r + k * W - startPos r W k)) % W = r := by
        rw [hd, Nat.add_mul_mod_self_right]
        exact Nat.mod_eq_of_lt hr
      have hspec := next_event_spec stream W r (startPos r W k)
        (r + k * W - startPos r W k) hr hdlt hmod
      rw [hd] at hspec
      cases hg : stream.get? (r + k * W) with
      | none =>
        rw [hsval, (hspec.1 hg).1]
      | some e =>
        rw [hsval, hspec.2 e hg]
    · have hex : next_event s = (none, s) := by
        apply next_event_exhausted
        rw [hstream]
        exact hlen
      rw [hex]
      have : stream.get? (r + k * W) = none := by
        apply List.get?_eq_none.mpr
        have : r + (k - 1) * W ≤ r + k * W := by
          have : (k - 1) * W ≤ k * W := Nat.mul_le_mul_right W (by omega)
          omega
        exact le_trans hbound this
      rw [this]
  refine ⟨main, fun p => ?_⟩
  have := main (p % W) (p / W) (Nat.mod_lt p hW)
  rwa [Nat.mod_add_div' p W] at this

/-- C3 witness: with 2 workers over the stream `[10, 20, 30, 40, 50]`, worker
1's second call returns the event at position 3, and position 4 is returned
by worker `4 % 2 = 0` as its `4 / 2 = 2`-nd result. -/
theorem sharded_worker_modulo_witness :
    nthResult (shardInit [10, 20, 30, 40, 50] 1 2) 1 = some 40 ∧
    nthResult (shardInit [10, 20, 30, 40, 50] (4 % 2) 2) (4 / 2) = some 50 := by
  have h := sharded_worker_modulo [10, 20, 30, 40, 50] 2 (by decide)
  exact ⟨h.1 1 1 (by decide), h.2 4⟩

end LCLS
